import Mathlib

/-!
Shallow embedding of `snapshot_inventory.py` (AWS snapshot inventory tool)
and proofs about its collection, aggregation, sorting and export logic.

Timestamps are modelled as integers (epoch seconds); `timedelta(days=d)`
is `d * 86400` seconds.  Sizes are modelled as rationals.  Python dict
accesses that may raise `KeyError` are modelled with `Option` fields, and
functions whose body can raise return `Except PyErr`.  A provider API
call that may fail with `ClientError` is modelled by the `Qr` type.
-/

/-- Seconds in one day; `timedelta(days=d)` contributes `d * 86400` seconds. -/
def secondsPerDay : Int := 86400

/-- Embeds `timedelta(days=d)` as a number of seconds. -/
def timedeltaDays (d : Int) : Int := d * secondsPerDay

/-- Outcome of one provider API query: either a payload or a `ClientError`. -/
inductive Qr (α : Type) where
  | ok (val : α)
  | clientError
deriving DecidableEq

/-- Python runtime error raised by a failing dict access (`KeyError`). -/
inductive PyErr where
  | keyError
deriving DecidableEq

/-- Runs a normalizer over a raw list the way the Python loops do: records
are appended one by one and a raised error aborts the whole loop. -/
def normList {α β : Type} (f : α → Except PyErr β) : List α → Except PyErr (List β)
  | [] => .ok []
  | x :: rest =>
    match f x with
    | .error e => .error e
    | .ok y =>
      match normList f rest with
      | .error e => .error e
      | .ok ys => .ok (y :: ys)

/-- Normalized snapshot record: the dict built by the three per-service
collectors.  Keys that a given service never writes are `none`;
`snapType` embeds the dict key named Type. -/
structure SnapshotRecord where
  service : String
  region : String
  snapType : String
  snapshotId : String
  source : String
  sourceName : Option String
  engine : String
  sizeGB : ℚ
  status : String
  creationTime : Int
  encrypted : Bool
  description : Option String
  lifeCycleState : Option String
  restoreProgress : Option String
  performanceMode : Option String
  volumeType : Option String
  volumeIOPS : Option String
  volumeThroughput : Option String
deriving DecidableEq

/-- Raw RDS snapshot object.  `snapshotCreateTime` is accessed directly in
the source (`snapshot['SnapshotCreateTime']`), so a missing key is a
`KeyError`; it is therefore an `Option`. `engine` and `encrypted` use
`.get` with defaults. -/
structure RawDbSnapshot where
  dbSnapshotIdentifier : String
  dbInstanceIdentifier : String
  engine : Option String
  allocatedStorage : Int
  status : String
  snapshotCreateTime : Option Int
  encrypted : Option Bool
deriving DecidableEq

/-- Embeds the per-snapshot dict construction in the two RDS loops. -/
def normalizeDb (region kind : String) (r : RawDbSnapshot) :
    Except PyErr SnapshotRecord :=
  match r.snapshotCreateTime with
  | none => .error .keyError
  | some t => .ok
      { service := "RDS"
        region := region
        snapType := kind
        snapshotId := r.dbSnapshotIdentifier
        source := r.dbInstanceIdentifier
        sourceName := none
        engine := r.engine.getD "N/A"
        sizeGB := (r.allocatedStorage : ℚ)
        status := r.status
        creationTime := t
        encrypted := r.encrypted.getD false
        description := none
        lifeCycleState := none
        restoreProgress := none
        performanceMode := none
        volumeType := none
        volumeIOPS := none
        volumeThroughput := none }

/-- Embeds `get_rds_snapshots_for_region`: `ClientError` from either
paginate is caught and yields `[]`; a missing `SnapshotCreateTime`
raises `KeyError`, which the `except ClientError` clause does not catch. -/
def get_rds_snapshots_for_region (region : String)
    (manualQ autoQ : Qr (List RawDbSnapshot)) :
    Except PyErr (List SnapshotRecord) :=
  match manualQ with
  | .clientError => .ok []
  | .ok ms =>
    match normList (normalizeDb region "Manual") ms with
    | .error e => .error e
    | .ok mrecs =>
      match autoQ with
      | .clientError => .ok []
      | .ok as2 =>
        match normList (normalizeDb region "Automated") as2 with
        | .error e => .error e
        | .ok arecs => .ok (mrecs ++ arecs)

/-- Volume detail entry built by the volume prefetch loop in
`get_ec2_snapshots_for_region`. -/
structure RawVolume where
  volumeId : String
  size : Int
  volumeType : String
  iops : Option Int
  throughput : Option Int
deriving DecidableEq

/-- Raw EBS snapshot object.  `StartTime`, `SnapshotId`, `VolumeSize` and
`State` are accessed directly; `StartTime` is the creation timestamp the
claims care about, so it is the one modelled as possibly missing. -/
structure RawEbsSnapshot where
  snapshotId : String
  volumeId : Option String
  volumeSize : Int
  state : String
  startTime : Option Int
  encrypted : Option Bool
  description : Option String
  tags : List (String × String)
deriving DecidableEq

/-- Embeds `next((tag['Value'] for tag in tags if tag['Key'] == 'Name'), 'N/A')`. -/
def findNameTag (tags : List (String × String)) : String :=
  match tags.find? (fun t => t.1 == "Name") with
  | some t => t.2
  | none => "N/A"

/-- First-match association lookup, embedding `volumes.get(volume_id, {})`. -/
def volLookup (vols : List RawVolume) (vid : String) : Option RawVolume :=
  vols.find? (fun v => v.volumeId == vid)

/-- Embeds the per-snapshot dict construction in the EBS loop. -/
def normalizeEbs (region : String) (vols : List RawVolume) (r : RawEbsSnapshot) :
    Except PyErr SnapshotRecord :=
  match r.startTime with
  | none => .error .keyError
  | some t =>
    let vid := r.volumeId.getD "N/A"
    let vd := volLookup vols vid
    .ok
      { service := "EBS"
        region := region
        snapType :=
          if (r.description.getD "").startsWith "Created by CreateImage" then
            "Automated" else "Manual"
        snapshotId := r.snapshotId
        source := vid
        sourceName := some (findNameTag r.tags)
        engine := match vd with | some v => v.volumeType | none => "EBS"
        sizeGB := (r.volumeSize : ℚ)
        status := r.state
        creationTime := t
        encrypted := r.encrypted.getD false
        description := some (r.description.getD "N/A")
        lifeCycleState := none
        restoreProgress := none
        performanceMode := none
        volumeType := some (match vd with | some v => v.volumeType | none => "N/A")
        volumeIOPS := some (match vd with
          | some v => match v.iops with | some n => toString n | none => "N/A"
          | none => "N/A")
        volumeThroughput := some (match vd with
          | some v => match v.throughput with | some n => toString n | none => "N/A"
          | none => "N/A") }

/-- Embeds `get_ec2_snapshots_for_region`: a `ClientError` on the snapshot
query yields `[]`; a failing volume query leaves the volume lookup empty
but collection continues; a missing `StartTime` raises `KeyError`. -/
def get_ec2_snapshots_for_region (region : String)
    (snapQ : Qr (List RawEbsSnapshot)) (volQ : Qr (List RawVolume)) :
    Except PyErr (List SnapshotRecord) :=
  match snapQ with
  | .clientError => .ok []
  | .ok snaps =>
    let vols := match volQ with | .clientError => [] | .ok vs => vs
    match normList (normalizeEbs region vols) snaps with
    | .error e => .error e
    | .ok recs => .ok recs

/-- Raw AWS Backup recovery point.  `RecoveryPointArn` and `CreationDate`
are accessed directly in the source; `CreationDate` is modelled as
possibly missing. -/
structure RawRecoveryPoint where
  recoveryPointArn : String
  backupSizeInBytes : Option Int
  createdBy : Option String
  status : Option String
  creationDate : Option Int
  backupVaultName : Option String
  lifecycleState : Option String
deriving DecidableEq

/-- Raw EFS file system together with the outcomes of the two per-filesystem
queries issued for it (`describe_backup_policy` and
`list_recovery_points_by_resource`). -/
structure RawFileSystem where
  fileSystemId : String
  fileSystemArn : String
  tags : List (String × String)
  performanceMode : Option String
  backupPolicyQ : Qr String
  recoveryPointsQ : Qr (List RawRecoveryPoint)
deriving DecidableEq

/-- Embeds `round(x, 2)` on a rational. -/
def round2 (q : ℚ) : ℚ := (round (q * 100) : ℤ) / 100

/-- Embeds `round(bytes / (1024**3), 2)`. -/
def efsSizeGB (bytes : Int) : ℚ := round2 ((bytes : ℚ) / (1024 ^ 3))

/-- Embeds `arn.split('/')[-1]`. -/
def lastSlashComponent (s : String) : String := (s.splitOn "/").getLastD s

/-- Embeds the per-recovery-point dict construction in the EFS loop. -/
def normalizeRp (region fsId fsName perfMode : String) (rp : RawRecoveryPoint) :
    Except PyErr SnapshotRecord :=
  match rp.creationDate with
  | none => .error .keyError
  | some t => .ok
      { service := "EFS"
        region := region
        snapType :=
          if (rp.createdBy.getD "").startsWith "aws/backup" then
            "Automated" else "Manual"
        snapshotId := lastSlashComponent rp.recoveryPointArn
        source := fsId
        sourceName := some fsName
        engine := "EFS"
        sizeGB := efsSizeGB (rp.backupSizeInBytes.getD 0)
        status := rp.status.getD "N/A"
        creationTime := t
        encrypted := true
        description := some (rp.backupVaultName.getD "N/A")
        lifeCycleState := some (rp.lifecycleState.getD "N/A")
        restoreProgress := some "N/A"
        performanceMode := some (perfMode)
        volumeType := none
        volumeIOPS := none
        volumeThroughput := none }

/-- Embeds the per-filesystem loop of `get_efs_snapshots_for_region`: a
`ClientError` from the backup-policy query or from the recovery-point
query skips that filesystem (`continue`); a missing `CreationDate`
raises `KeyError` which no `except` clause catches. -/
def processFileSystems (region : String) :
    List RawFileSystem → Except PyErr (List SnapshotRecord)
  | [] => .ok []
  | fs :: rest =>
    match fs.backupPolicyQ with
    | .clientError => processFileSystems region rest
    | .ok _ =>
      match fs.recoveryPointsQ with
      | .clientError => processFileSystems region rest
      | .ok rps =>
        match normList
            (normalizeRp region fs.fileSystemId (findNameTag fs.tags)
              (fs.performanceMode.getD "N/A")) rps with
        | .error e => .error e
        | .ok recs =>
          match processFileSystems region rest with
          | .error e => .error e
          | .ok others => .ok (recs ++ others)

/-- Embeds `get_efs_snapshots_for_region`: `ClientError` on the filesystem
listing yields `[]`. -/
def get_efs_snapshots_for_region (region : String)
    (fsQ : Qr (List RawFileSystem)) : Except PyErr (List SnapshotRecord) :=
  match fsQ with
  | .clientError => .ok []
  | .ok fss => processFileSystems region fss

/-- Provider responses visible to one region's collection task. -/
structure RegionEnv where
  rdsManualQ : Qr (List RawDbSnapshot)
  rdsAutoQ : Qr (List RawDbSnapshot)
  ebsSnapQ : Qr (List RawEbsSnapshot)
  ebsVolQ : Qr (List RawVolume)
  efsFsQ : Qr (List RawFileSystem)
deriving DecidableEq

/-- Embeds `get_snapshots_for_region`: the concatenation of the three
per-service results, in RDS, EC2, EFS order; an uncaught error in any
sub-call propagates. -/
def get_snapshots_for_region (region : String) (env : RegionEnv) :
    Except PyErr (List SnapshotRecord) :=
  match get_rds_snapshots_for_region region env.rdsManualQ env.rdsAutoQ with
  | .error e => .error e
  | .ok rds =>
    match get_ec2_snapshots_for_region region env.ebsSnapQ env.ebsVolQ with
    | .error e => .error e
    | .ok ec2 =>
      match get_efs_snapshots_for_region region env.efsFsQ with
      | .error e => .error e
      | .ok efs => .ok (rds ++ ec2 ++ efs)

/-- Embeds the per-region handler in `main`: a region task that raises
contributes nothing to the merged collection. -/
def regionTaskResult (region : String) (env : RegionEnv) : List SnapshotRecord :=
  match get_snapshots_for_region region env with
  | .error _ => []
  | .ok rs => rs

/-- Embeds the `ranges` list literal in `generate_date_ranges`. -/
def rangesSpec : List (Int × String) :=
  [(7, "7 days"), (15, "15 days"), (30, "30 days"), (90, "90 days"),
   (180, "180 days"), (365, "365 days"), (730, "730 days")]

/-- Embeds the loop of `generate_date_ranges`: each step appends
`(latest - timedelta(days), latest, label)` and moves `latest` backward. -/
def drGo (latest : Int) : List (Int × String) → List (Int × Int × String)
  | [] => []
  | (d, lbl) :: rest =>
    (latest - timedeltaDays d, latest, lbl) :: drGo (latest - timedeltaDays d) rest

/-- Embeds `generate_date_ranges`. -/
def generate_date_ranges (latestDate : Int) : List (Int × Int × String) :=
  drGo latestDate rangesSpec

/-- Embeds the range-scan inside `generate_summary`: the first range with
`start_date <= creation_time <= end_date` wins; if none matches the
record goes into the overflow label. -/
def bucketLabel : List (Int × Int × String) → Int → String
  | [], _ => "> 730 days"
  | (s, e, lbl) :: rest, t => if s ≤ t ∧ t ≤ e then lbl else bucketLabel rest t

/-- Projection stored in the summary for each snapshot (the 4-key dict
appended inside `generate_summary`). -/
structure SummaryEntry where
  snapshotId : String
  creationTime : Int
  sizeGB : ℚ
  snapType : String
deriving DecidableEq

/-- Builds the summary projection of a record. -/
def entryOf (s : SnapshotRecord) : SummaryEntry :=
  { snapshotId := s.snapshotId
    creationTime := s.creationTime
    sizeGB := s.sizeGB
    snapType := s.snapType }

/-- Insertion-ordered two-level dictionary modelling the
`defaultdict(lambda: defaultdict(list))` in `generate_summary`. -/
abbrev Summary := List (String × List (String × List SummaryEntry))

/-- Appends an entry under a label in the inner dict, creating the label
slot at the end when absent (dict insertion order). -/
def appendInner : List (String × List SummaryEntry) → String → SummaryEntry →
    List (String × List SummaryEntry)
  | [], lbl, p => [(lbl, [p])]
  | (l0, ps) :: rest, lbl, p =>
    if l0 = lbl then (l0, ps ++ [p]) :: rest
    else (l0, ps) :: appendInner rest lbl p

/-- Appends an entry under key and label in the outer dict. -/
def appendOuter : Summary → String → String → SummaryEntry → Summary
  | [], k, lbl, p => [(k, [(lbl, [p])])]
  | (k0, inner) :: rest, k, lbl, p =>
    if k0 = k then (k0, appendInner inner lbl p) :: rest
    else (k0, inner) :: appendOuter rest k lbl p

/-- Embeds the grouping key `f"{service}-{source}"`. -/
def aggKey (s : SnapshotRecord) : String := s.service ++ "-" ++ s.source

/-- Embeds the main loop of `generate_summary` over a fixed range list. -/
def summaryFold (dr : List (Int × Int × String)) (ss : List SnapshotRecord) :
    Summary :=
  ss.foldl
    (fun m s => appendOuter m (aggKey s) (bucketLabel dr s.creationTime) (entryOf s))
    []

/-- Embeds `max(s['Creation Time'] for s in snapshots)`: a left fold of
`max` seeded with the first element. -/
def anchorOf : List SnapshotRecord → Int
  | [] => 0
  | s :: rest => rest.foldl (fun m r => max m r.creationTime) s.creationTime

/-- Embeds `generate_summary`: empty input gives the empty dict, otherwise
ranges are generated from the maximum creation time and every snapshot
is appended under its key and bucket label. -/
def generate_summary (ss : List SnapshotRecord) : Summary :=
  match ss with
  | [] => []
  | s :: rest =>
    summaryFold (generate_date_ranges (anchorOf (s :: rest))) (s :: rest)

/-- Reads the list stored under a key and a label; a missing key or label
reads as the empty list (defaultdict semantics). -/
def lookupInner : List (String × List SummaryEntry) → String → List SummaryEntry
  | [], _ => []
  | (l0, ps) :: rest, lbl => if l0 = lbl then ps else lookupInner rest lbl

/-- Reads the group list of a (key, label) pair of the summary. -/
def lookupSummary : Summary → String → String → List SummaryEntry
  | [], _, _ => []
  | (k0, inner) :: rest, k, lbl =>
    if k0 = k then lookupInner inner lbl else lookupSummary rest k lbl

/-- Number of entries stored in one inner dict. -/
def innerCount (inner : List (String × List SummaryEntry)) : Nat :=
  (inner.map (fun x => x.2.length)).sum

/-- Total number of entries stored across all groups of the summary: the
total snapshot count summed over all bucket/group rows. -/
def totalCount (m : Summary) : Nat :=
  (m.map (fun x => innerCount x.2)).sum

/-- Bucket labels in report order: the seven window labels plus overflow. -/
def allBucketLabels : List String :=
  ["7 days", "15 days", "30 days", "90 days", "180 days", "365 days",
   "730 days", "> 730 days"]

/-- Embeds Python string comparison (strict, lexicographic on code points)
on the underlying character lists. -/
def charListLt : List Char → List Char → Bool
  | [], [] => false
  | [], _ :: _ => true
  | _ :: _, [] => false
  | c :: cs, d :: ds => if c < d then true else if d < c then false else charListLt cs ds

/-- Python `<` on strings. -/
def strLt (a b : String) : Bool := charListLt a.data b.data

/-- Embeds Python tuple comparison on the sort key
`(x['Service'], x['Type'], x['Creation Time'])`. -/
def keyLt (x y : SnapshotRecord) : Bool :=
  strLt x.service y.service ||
    (x.service == y.service &&
      (strLt x.snapType y.snapType ||
        (x.snapType == y.snapType && decide (x.creationTime < y.creationTime))))

/-- Embeds `sorted(all_snapshots, key=..., reverse=True)`: a stable sort
placing `x` before `y` whenever the key of `x` is not less than the key
of `y`. -/
def sortSnapshots (ss : List SnapshotRecord) : List SnapshotRecord :=
  ss.mergeSort (fun x y => !(keyLt x y))

/-- Decimal digit character. -/
def digitChar (d : Nat) : Char := Char.ofNat (48 + d)

/-- Two-digit zero-padded decimal field, as produced by strftime
directives such as percent-m. -/
def format2 (n : Nat) : String :=
  String.mk [digitChar (n / 10 % 10), digitChar (n % 10)]

/-- Four-digit zero-padded decimal field, as produced by the year
directive for in-range years. -/
def format4 (n : Nat) : String :=
  String.mk [digitChar (n / 1000 % 10), digitChar (n / 100 % 10),
    digitChar (n / 10 % 10), digitChar (n % 10)]

/-- Embeds `datetime.now().strftime('%Y%m%d_%H%M%S')` applied to the
current local time broken into components. -/
def strftimeTimestamp (y mo d h mi s : Nat) : String :=
  format4 y ++ format2 mo ++ format2 d ++ "_" ++ format2 h ++ format2 mi ++ format2 s

/-- Embeds the f-string building the flat CSV file name in `main`. -/
def csv_filename (accountId timestamp : String) : String :=
  "aws_snapshots_" ++ accountId ++ "_" ++ timestamp ++ ".csv"

/-- Embeds the f-string building the summary CSV file name in `main`. -/
def summary_filename (accountId timestamp : String) : String :=
  "aws_snapshots_summary_" ++ accountId ++ "_" ++ timestamp ++ ".csv"

/-- Concrete record used as an anchor in witnesses: a manual EBS snapshot
created 800 days after epoch. -/
def recNew : SnapshotRecord :=
  { service := "EBS", region := "us-east-1", snapType := "Manual",
    snapshotId := "snap-new", source := "vol-1", sourceName := none,
    engine := "gp2", sizeGB := 8, status := "completed",
    creationTime := 800 * 86400, encrypted := false, description := none,
    lifeCycleState := none, restoreProgress := none, performanceMode := none,
    volumeType := none, volumeIOPS := none, volumeThroughput := none }

/-- Concrete record exactly 800 days older than `recNew`. -/
def recOld : SnapshotRecord :=
  { recNew with snapshotId := "snap-old", creationTime := 0 }

/-- Concrete automated sibling of `recNew`. -/
def recAuto : SnapshotRecord :=
  { recNew with snapshotId := "snap-auto", snapType := "Automated" }

/-- Concrete well-formed raw RDS snapshot. -/
def rawDbGood : RawDbSnapshot :=
  { dbSnapshotIdentifier := "db-snap-1", dbInstanceIdentifier := "db-1",
    engine := some "postgres", allocatedStorage := 20, status := "available",
    snapshotCreateTime := some 1000, encrypted := some true }

/-- Concrete raw RDS snapshot missing its creation timestamp. -/
def rawDbBad : RawDbSnapshot :=
  { rawDbGood with
    dbSnapshotIdentifier := "db-snap-2"
    snapshotCreateTime := none }

/-- Normalized form of `rawDbGood` as a manual snapshot. -/
def dbRecNorm : SnapshotRecord :=
  { service := "RDS", region := "us-east-1", snapType := "Manual",
    snapshotId := "db-snap-1", source := "db-1", sourceName := none,
    engine := "postgres", sizeGB := 20, status := "available",
    creationTime := 1000, encrypted := true, description := none,
    lifeCycleState := none, restoreProgress := none, performanceMode := none,
    volumeType := none, volumeIOPS := none, volumeThroughput := none }

/-- Concrete healthy region environment with a single RDS snapshot. -/
def env0 : RegionEnv :=
  { rdsManualQ := .ok [rawDbGood], rdsAutoQ := .ok [],
    ebsSnapQ := .ok [], ebsVolQ := .ok [], efsFsQ := .ok [] }

/-- Concrete region environment whose RDS manual listing contains a record
missing its creation timestamp. -/
def envBad : RegionEnv :=
  { env0 with rdsManualQ := .ok [rawDbGood, rawDbBad] }

/-- Concrete recovery point for EFS witnesses. -/
def rpGood : RawRecoveryPoint :=
  { recoveryPointArn := "arn:aws:backup:us-east-1:123:recovery-point/rp-1",
    backupSizeInBytes := some 1073741824, createdBy := some "aws/backup/plan",
    status := some "COMPLETED", creationDate := some 500,
    backupVaultName := some "Default", lifecycleState := some "ACTIVE" }

/-- Concrete filesystem whose two sub-queries both succeed. -/
def fsGood : RawFileSystem :=
  { fileSystemId := "fs-1", fileSystemArn := "arn:fs-1",
    tags := [("Name", "data")], performanceMode := some "generalPurpose",
    backupPolicyQ := .ok "ENABLED", recoveryPointsQ := .ok [rpGood] }

/-- Concrete filesystem whose backup-policy lookup fails. -/
def fsSkip : RawFileSystem :=
  { fileSystemId := "fs-2", fileSystemArn := "arn:fs-2", tags := [],
    performanceMode := none, backupPolicyQ := .clientError,
    recoveryPointsQ := .ok [rpGood] }

theorem lookupInner_appendInner (lbl : String) (p : SummaryEntry) (l : String) :
    ∀ inner, lookupInner (appendInner inner lbl p) l =
      lookupInner inner l ++ (if lbl = l then [p] else [])
  | [] => by simp [appendInner, lookupInner]
  | (l0, ps) :: rest => by
    by_cases h : l0 = lbl
    · subst h
      by_cases h2 : l0 = l
      · subst h2; simp [appendInner, lookupInner]
      · simp [appendInner, lookupInner, h2]
    · by_cases h2 : l0 = l
      · subst h2
        have h3 : ¬ lbl = l0 := fun e => h e.symm
        simp [appendInner, lookupInner, h, h3]
      · simp [appendInner, lookupInner, h, h2,
          lookupInner_appendInner lbl p l rest]

theorem lookupSummary_appendOuter (k lbl : String) (p : SummaryEntry) (k1 l1 : String) :
    ∀ m, lookupSummary (appendOuter m k lbl p) k1 l1 =
      lookupSummary m k1 l1 ++ (if k = k1 ∧ lbl = l1 then [p] else [])
  | [] => by
    by_cases h : k = k1 <;> by_cases h2 : lbl = l1 <;>
      simp [appendOuter, lookupSummary, lookupInner, h, h2]
  | (k0, inner) :: rest => by
    by_cases h : k0 = k
    · subst h
      by_cases h2 : k0 = k1
      · subst h2
        simp [appendOuter, lookupSummary, lookupInner_appendInner]
      · have h3 : ¬ (k0 = k1 ∧ lbl = l1) := fun e => h2 e.1
        simp [appendOuter, lookupSummary, h2, h3]
    · by_cases h2 : k0 = k1
      · subst h2
        have h3 : ¬ k = k0 := fun e => h e.symm
        have h4 : ¬ (k = k0 ∧ lbl = l1) := fun e => h3 e.1
        simp [appendOuter, lookupSummary, h, h4]
      · simp [appendOuter, lookupSummary, h, h2,
          lookupSummary_appendOuter k lbl p k1 l1 rest]

theorem lookupSummary_fold (dr : List (Int × Int × String)) (k l : String) :
    ∀ (ss : List SnapshotRecord) (m : Summary),
      lookupSummary
        (ss.foldl (fun m s =>
          appendOuter m (aggKey s) (bucketLabel dr s.creationTime) (entryOf s)) m) k l =
      lookupSummary m k l ++
        (ss.filter (fun s =>
          decide (aggKey s = k ∧ bucketLabel dr s.creationTime = l))).map entryOf
  | [], m => by simp
  | s :: rest, m => by
    simp only [List.foldl_cons, List.filter_cons]
    rw [lookupSummary_fold dr k l rest _, lookupSummary_appendOuter]
    by_cases h : aggKey s = k ∧ bucketLabel dr s.creationTime = l
    · simp [h]
    · simp [h]

theorem lookupSummary_summaryFold (dr : List (Int × Int × String))
    (ss : List SnapshotRecord) (k l : String) :
    lookupSummary (summaryFold dr ss) k l =
      (ss.filter (fun s =>
        decide (aggKey s = k ∧ bucketLabel dr s.creationTime = l))).map entryOf := by
  have h := lookupSummary_fold dr k l ss []
  simpa [summaryFold, lookupSummary] using h

theorem innerCount_appendInner (lbl : String) (p : SummaryEntry) :
    ∀ inner, innerCount (appendInner inner lbl p) = innerCount inner + 1
  | [] => by simp [appendInner, innerCount]
  | (l0, ps) :: rest => by
    by_cases h : l0 = lbl
    · simp [appendInner, h, innerCount]
      omega
    · have ih := innerCount_appendInner lbl p rest
      simp only [innerCount] at ih
      simp [appendInner, h, innerCount, ih]
      omega

theorem totalCount_appendOuter (k lbl : String) (p : SummaryEntry) :
    ∀ m, totalCount (appendOuter m k lbl p) = totalCount m + 1
  | [] => by simp [appendOuter, totalCount, innerCount]
  | (k0, inner) :: rest => by
    by_cases h : k0 = k
    · have ih := innerCount_appendInner lbl p inner
      simp [appendOuter, h, totalCount, ih]
      omega
    · have ih := totalCount_appendOuter k lbl p rest
      simp only [totalCount] at ih
      simp [appendOuter, h, totalCount, ih]
      omega

theorem totalCount_fold (dr : List (Int × Int × String)) :
    ∀ (ss : List SnapshotRecord) (m : Summary),
      totalCount
        (ss.foldl (fun m s =>
          appendOuter m (aggKey s) (bucketLabel dr s.creationTime) (entryOf s)) m) =
      totalCount m + ss.length
  | [], m => by simp
  | s :: rest, m => by
    simp only [List.foldl_cons, List.length_cons]
    rw [totalCount_fold dr rest _, totalCount_appendOuter]
    omega

theorem totalCount_summaryFold (dr : List (Int × Int × String))
    (ss : List SnapshotRecord) :
    totalCount (summaryFold dr ss) = ss.length := by
  have h := totalCount_fold dr ss []
  simpa [summaryFold, totalCount] using h

theorem foldl_max_spec :
    ∀ (l : List SnapshotRecord) (init : Int),
      init ≤ l.foldl (fun m r => max m r.creationTime) init ∧
      (∀ s ∈ l, s.creationTime ≤ l.foldl (fun m r => max m r.creationTime) init) ∧
      (l.foldl (fun m r => max m r.creationTime) init = init ∨
        l.foldl (fun m r => max m r.creationTime) init ∈
          l.map (fun r => r.creationTime))
  | [], init => by simp
  | r :: rest, init => by
    have ih := foldl_max_spec rest (max init r.creationTime)
    simp only [List.foldl_cons, List.map_cons, List.mem_cons]
    refine ⟨le_trans (le_max_left _ _) ih.1, ?_, ?_⟩
    · intro s hs
      rcases hs with h | h
      · subst h; exact le_trans (le_max_right _ _) ih.1
      · exact ih.2.1 s h
    · rcases ih.2.2 with h | h
      · rcases max_choice init r.creationTime with h2 | h2
        · exact Or.inl (h.trans h2)
        · exact Or.inr (Or.inl (h.trans h2))
      · exact Or.inr (Or.inr h)

theorem anchorOf_spec (ss : List SnapshotRecord) (h : ss ≠ []) :
    anchorOf ss ∈ ss.map (fun r => r.creationTime) ∧
      ∀ s ∈ ss, s.creationTime ≤ anchorOf ss := by
  match ss with
  | [] => exact absurd rfl h
  | r :: rest =>
    have hs := foldl_max_spec rest r.creationTime
    constructor
    · simp only [anchorOf, List.map_cons, List.mem_cons]
      rcases hs.2.2 with h2 | h2
      · exact Or.inl h2
      · exact Or.inr h2
    · intro s hsm
      rcases List.mem_cons.mp hsm with h2 | h2
      · subst h2; exact hs.1
      · exact hs.2.1 s h2

theorem sum_indicator (a : String) :
    ∀ (L : List String), L.Nodup → a ∈ L →
      (L.map (fun lbl => if a = lbl then 1 else 0)).sum = 1
  | [] => by intro _ h; simp at h
  | b :: L => by
    intro hn hm
    by_cases h : a = b
    · subst h
      have hnl : a ∉ L := (List.nodup_cons.mp hn).1
      have hz : (L.map (fun lbl => if a = lbl then 1 else 0)).sum = 0 := by
        apply List.sum_eq_zero
        intro x hx
        rcases List.mem_map.mp hx with ⟨lbl, hlbl, hxe⟩
        have : ¬ a = lbl := fun e => hnl (e ▸ hlbl)
        simp [← hxe, this]
      simp [hz]
    · have hm2 : a ∈ L := by
        rcases List.mem_cons.mp hm with h2 | h2
        · exact absurd h2 h
        · exact h2
      simp [h, sum_indicator a L (List.nodup_cons.mp hn).2 hm2]

theorem sum_count_filter (g : SnapshotRecord → String) :
    ∀ (xs : List SnapshotRecord) (L : List String), L.Nodup →
      (∀ x ∈ xs, g x ∈ L) →
      (L.map (fun lbl => (xs.filter (fun x => decide (g x = lbl))).length)).sum
        = xs.length
  | [], L => by intro _ _; simp
  | x :: xs, L => by
    intro hn hmem
    have hx : g x ∈ L := hmem x (List.mem_cons_self x xs)
    have ih := sum_count_filter g xs L hn (fun y hy => hmem y (List.mem_cons_of_mem x hy))
    have hstep : ∀ lbl : String,
        ((x :: xs).filter (fun y => decide (g y = lbl))).length =
          (if g x = lbl then 1 else 0) + (xs.filter (fun y => decide (g y = lbl))).length := by
      intro lbl
      by_cases h : g x = lbl
      · simp [List.filter_cons, h]
        omega
      · simp [List.filter_cons, h]
    calc (L.map (fun lbl => ((x :: xs).filter (fun y => decide (g y = lbl))).length)).sum
        = (L.map (fun lbl => (if g x = lbl then 1 else 0) +
            (xs.filter (fun y => decide (g y = lbl))).length)).sum := by
          congr 1
          exact List.map_congr_left (fun lbl _ => hstep lbl)
      _ = (L.map (fun lbl => if g x = lbl then 1 else 0)).sum +
            (L.map (fun lbl => (xs.filter (fun y => decide (g y = lbl))).length)).sum :=
          List.sum_map_add
      _ = 1 + xs.length := by rw [sum_indicator (g x) L hn hx, ih]
      _ = (x :: xs).length := by simp [Nat.add_comm]

theorem generate_date_ranges_eq (a : Int) :
    generate_date_ranges a =
      [(a - 7*86400, a, "7 days"),
       (a - 22*86400, a - 7*86400, "15 days"),
       (a - 52*86400, a - 22*86400, "30 days"),
       (a - 142*86400, a - 52*86400, "90 days"),
       (a - 322*86400, a - 142*86400, "180 days"),
       (a - 687*86400, a - 322*86400, "365 days"),
       (a - 1417*86400, a - 687*86400, "730 days")] := by
  simp [generate_date_ranges, rangesSpec, drGo, timedeltaDays, secondsPerDay]
  omega

theorem bucketLabel_mem_allBucketLabels (a t : Int) :
    bucketLabel (generate_date_ranges a) t ∈ allBucketLabels := by
  rw [generate_date_ranges_eq]
  simp only [bucketLabel]
  split_ifs <;> simp [allBucketLabels]

/-- C1: for every non-empty input, every record's bucket label is one of the
seven window labels or the overflow label, summing the per-label filtered
counts over the eight distinct labels accounts for each record exactly once,
each (key, label) group of the summary holds exactly the records mapped
there, and the total snapshot count summed across all bucket/group entries
equals the number of input records. -/
theorem generate_summary_partition_total_count
    (ss : List SnapshotRecord) (h : ss ≠ []) :
    totalCount (generate_summary ss) = ss.length ∧
    (∀ s ∈ ss,
      bucketLabel (generate_date_ranges (anchorOf ss)) s.creationTime ∈
        allBucketLabels) ∧
    (allBucketLabels.map (fun lbl =>
      (ss.filter (fun s =>
        decide (bucketLabel (generate_date_ranges (anchorOf ss)) s.creationTime
          = lbl))).length)).sum = ss.length ∧
    (∀ k l, lookupSummary (generate_summary ss) k l =
      (ss.filter (fun s =>
        decide (aggKey s = k ∧
          bucketLabel (generate_date_ranges (anchorOf ss)) s.creationTime = l))).map
        entryOf) := by
  match ss with
  | [] => exact absurd rfl h
  | s0 :: rest =>
    have hsum : generate_summary (s0 :: rest) =
        summaryFold (generate_date_ranges (anchorOf (s0 :: rest))) (s0 :: rest) := rfl
    refine ⟨?_, ?_, ?_, ?_⟩
    · rw [hsum, totalCount_summaryFold]
    · intro s _
      exact bucketLabel_mem_allBucketLabels _ _
    · exact sum_count_filter
        (fun s => bucketLabel (generate_date_ranges (anchorOf (s0 :: rest))) s.creationTime)
        (s0 :: rest) allBucketLabels (by decide)
        (fun x _ => bucketLabel_mem_allBucketLabels _ _)
    · intro k l
      rw [hsum, lookupSummary_summaryFold]

/-- C1 witness: the two-record input is fully accounted for. -/
theorem generate_summary_partition_total_count_witness :
    totalCount (generate_summary [recNew, recOld]) = 2 := by
  have h := generate_summary_partition_total_count [recNew, recOld] (by simp)
  exact h.1

/-- C2: for every anchor, `generate_date_ranges` produces exactly seven
windows; each following window's end equals the previous window's start;
taken half-open the windows are pairwise disjoint and contiguously cover
the 1417 days below the anchor; and for every non-empty input,
`generate_summary` anchors the ranges at the maximum creation time over
all records. -/
theorem generate_date_ranges_seven_contiguous_anchor_max
    (a : Int) (ss : List SnapshotRecord) (h : ss ≠ []) :
    (generate_date_ranges a).length = 7 ∧
    (∀ i, i + 1 < 7 →
      ((generate_date_ranges a).getD (i + 1) (0, 0, "")).2.1 =
        ((generate_date_ranges a).getD i (0, 0, "")).1) ∧
    (∀ i j, i < 7 → j < 7 → i ≠ j → ∀ t : Int,
      ¬ ((((generate_date_ranges a).getD i (0, 0, "")).1 ≤ t ∧
          t < ((generate_date_ranges a).getD i (0, 0, "")).2.1) ∧
         (((generate_date_ranges a).getD j (0, 0, "")).1 ≤ t ∧
          t < ((generate_date_ranges a).getD j (0, 0, "")).2.1))) ∧
    (∀ t : Int, (a - timedeltaDays 1417 ≤ t ∧ t < a) ↔
      ∃ r ∈ generate_date_ranges a, r.1 ≤ t ∧ t < r.2.1) ∧
    anchorOf ss ∈ ss.map (fun r => r.creationTime) ∧
    (∀ s ∈ ss, s.creationTime ≤ anchorOf ss) ∧
    generate_summary ss = summaryFold (generate_date_ranges (anchorOf ss)) ss := by
  have hanch := anchorOf_spec ss h
  refine ⟨?_, ?_, ?_, ?_, hanch.1, hanch.2, ?_⟩
  · rw [generate_date_ranges_eq]; rfl
  · intro i hi
    have hi6 : i < 6 := by omega
    rw [generate_date_ranges_eq]
    interval_cases i <;> rfl
  · intro i j hi hj hne t
    rw [generate_date_ranges_eq]
    interval_cases i <;> interval_cases j <;> simp_all <;> omega
  · intro t
    rw [generate_date_ranges_eq]
    simp only [timedeltaDays, secondsPerDay, List.mem_cons, List.not_mem_nil,
      or_false, exists_eq_or_imp, exists_eq_left]
    omega
  · match ss with
    | [] => exact absurd rfl h
    | s0 :: rest => rfl

/-- C2 witness: seven windows at anchor 0 and the anchor of a singleton
input is its only creation time. -/
theorem generate_date_ranges_seven_contiguous_anchor_max_witness :
    (generate_date_ranges 0).length = 7 ∧
    anchorOf [recNew] ∈ [recNew].map (fun r => r.creationTime) := by
  have h := generate_date_ranges_seven_contiguous_anchor_max 0 [recNew] (by simp)
  exact ⟨h.1, h.2.2.2.2.1⟩

/-- C3 counterexample: in a concrete input whose oldest record sits exactly
800 days before the anchor, `generate_summary` leaves the overflow group
empty and files the record under the seventh window instead. -/
theorem record_800_days_old_not_in_overflow :
    recOld.creationTime = anchorOf [recNew, recOld] - 800 * 86400 ∧
    lookupSummary (generate_summary [recNew, recOld]) "EBS-vol-1" "> 730 days"
      = [] ∧
    lookupSummary (generate_summary [recNew, recOld]) "EBS-vol-1" "730 days"
      = [entryOf recOld] := by decide

/-- C3 amended: a record whose creation time is exactly anchor minus 800
days is assigned to the seventh window, the one labeled 730 days (which
spans cumulative depths 687 to 1417 days), not to the overflow bucket. -/
theorem record_800_days_old_in_730_window
    (ss : List SnapshotRecord) (s : SnapshotRecord) (hmem : s ∈ ss)
    (ht : s.creationTime = anchorOf ss - 800 * 86400) :
    bucketLabel (generate_date_ranges (anchorOf ss)) s.creationTime
      = "730 days" ∧
    entryOf s ∈ lookupSummary (generate_summary ss) (aggKey s) "730 days" := by
  have hne : ss ≠ [] := by
    intro he; subst he; simp at hmem
  have hbl : bucketLabel (generate_date_ranges (anchorOf ss)) s.creationTime
      = "730 days" := by
    rw [generate_date_ranges_eq, ht]
    simp only [bucketLabel]
    split_ifs <;> first | rfl | (exfalso; omega)
  refine ⟨hbl, ?_⟩
  match ss with
  | [] => exact absurd rfl hne
  | s0 :: rest =>
    have hsum : generate_summary (s0 :: rest) =
        summaryFold (generate_date_ranges (anchorOf (s0 :: rest))) (s0 :: rest) := rfl
    rw [hsum, lookupSummary_summaryFold]
    exact List.mem_map_of_mem entryOf
      (List.mem_filter.mpr ⟨hmem, by simp [hbl]⟩)

/-- C3 amended witness: the concrete 800-day-old record lands in the
seventh window group. -/
theorem record_800_days_old_in_730_window_witness :
    bucketLabel (generate_date_ranges (anchorOf [recNew, recOld]))
      recOld.creationTime = "730 days" ∧
    entryOf recOld ∈
      lookupSummary (generate_summary [recNew, recOld]) (aggKey recOld)
        "730 days" :=
  record_800_days_old_in_730_window [recNew, recOld] recOld (by simp)
    (by decide)

/-- C4: the seventh window generated from any anchor spans anchor minus
1417 days to anchor minus 687 days, and a record no newer than the anchor
is assigned the overflow label exactly when its creation time is strictly
earlier than anchor minus 1417 days. -/
theorem overflow_iff_older_than_1417_days (a t : Int) (h : t ≤ a) :
    (generate_date_ranges a).getD 6 (0, 0, "")
      = (a - 1417 * 86400, a - 687 * 86400, "730 days") ∧
    (bucketLabel (generate_date_ranges a) t = "> 730 days" ↔
      t < a - 1417 * 86400) := by
  constructor
  · rw [generate_date_ranges_eq]
    rfl
  · rw [generate_date_ranges_eq]
    simp only [bucketLabel]
    split_ifs <;>
      first
        | exact iff_of_false (by decide) (by omega)
        | exact iff_of_true rfl (by omega)

/-- C4 witness: instance at anchor 0 and a record at the anchor itself. -/
theorem overflow_iff_older_than_1417_days_witness :
    (generate_date_ranges 0).getD 6 (0, 0, "")
      = (0 - 1417 * 86400, 0 - 687 * 86400, "730 days") ∧
    (bucketLabel (generate_date_ranges 0) 0 = "> 730 days" ↔
      (0 : Int) < 0 - 1417 * 86400) :=
  overflow_iff_older_than_1417_days 0 0 (le_refl 0)

/-- C5: aggregation is order-independent: for every permutation of a
non-empty input, every (key, label) group of the summary holds the same
records up to order, hence the same count, the same total size, and the
same membership. -/
theorem generate_summary_order_independent
    (ss ss2 : List SnapshotRecord) (hp : ss.Perm ss2) (hne : ss ≠ [])
    (k l : String) :
    (lookupSummary (generate_summary ss) k l).Perm
      (lookupSummary (generate_summary ss2) k l) ∧
    (lookupSummary (generate_summary ss) k l).length =
      (lookupSummary (generate_summary ss2) k l).length ∧
    ((lookupSummary (generate_summary ss) k l).map (fun e => e.sizeGB)).sum =
      ((lookupSummary (generate_summary ss2) k l).map (fun e => e.sizeGB)).sum ∧
    (∀ e, e ∈ lookupSummary (generate_summary ss) k l ↔
      e ∈ lookupSummary (generate_summary ss2) k l) := by
  have hne2 : ss2 ≠ [] := by
    intro he
    apply hne
    have hl := hp.length_eq
    rw [he] at hl
    exact List.length_eq_zero.mp hl
  have ha : anchorOf ss = anchorOf ss2 := by
    have h1 := anchorOf_spec ss hne
    have h2 := anchorOf_spec ss2 hne2
    have hm1 : anchorOf ss ∈ ss2.map (fun r => r.creationTime) :=
      ((hp.map (fun r => r.creationTime)).mem_iff).mp h1.1
    have hm2 : anchorOf ss2 ∈ ss.map (fun r => r.creationTime) :=
      ((hp.map (fun r => r.creationTime)).mem_iff).mpr h2.1
    rcases List.mem_map.mp hm1 with ⟨x, hx, hxe⟩
    rcases List.mem_map.mp hm2 with ⟨y, hy, hye⟩
    have le1 : anchorOf ss ≤ anchorOf ss2 := hxe ▸ h2.2 x hx
    have le2 : anchorOf ss2 ≤ anchorOf ss := hye ▸ h1.2 y hy
    omega
  have e1 : lookupSummary (generate_summary ss) k l =
      (ss.filter (fun s =>
        decide (aggKey s = k ∧
          bucketLabel (generate_date_ranges (anchorOf ss)) s.creationTime = l))).map
        entryOf := by
    match ss with
    | [] => exact absurd rfl hne
    | s0 :: rest =>
      exact lookupSummary_summaryFold _ _ k l
  have e2 : lookupSummary (generate_summary ss2) k l =
      (ss2.filter (fun s =>
        decide (aggKey s = k ∧
          bucketLabel (generate_date_ranges (anchorOf ss2)) s.creationTime = l))).map
        entryOf := by
    match ss2 with
    | [] => exact absurd rfl hne2
    | s0 :: rest =>
      exact lookupSummary_summaryFold _ _ k l
  rw [e1, e2, ← ha]
  have hperm :
      ((ss.filter (fun s =>
        decide (aggKey s = k ∧
          bucketLabel (generate_date_ranges (anchorOf ss)) s.creationTime = l))).map
        entryOf).Perm
      ((ss2.filter (fun s =>
        decide (aggKey s = k ∧
          bucketLabel (generate_date_ranges (anchorOf ss)) s.creationTime = l))).map
        entryOf) :=
    (hp.filter _).map entryOf
  exact ⟨hperm, hperm.length_eq, (hperm.map _).sum_eq, fun e => hperm.mem_iff⟩

/-- C5 witness: swapping a concrete two-record input leaves a group's
count unchanged. -/
theorem generate_summary_order_independent_witness :
    (lookupSummary (generate_summary [recNew, recOld]) "EBS-vol-1"
      "730 days").length =
    (lookupSummary (generate_summary [recOld, recNew]) "EBS-vol-1"
      "730 days").length := by
  have h := generate_summary_order_independent [recNew, recOld]
    [recOld, recNew] (List.Perm.swap recOld recNew []) (by simp)
    "EBS-vol-1" "730 days"
  exact h.2.1

theorem normList_error {α β : Type} (f : α → Except PyErr β) :
    ∀ (l : List α), (∃ b ∈ l, f b = .error .keyError) →
      normList f l = .error .keyError
  | [], h => by simp at h
  | x :: rest, h => by
    rcases h with ⟨b, hb, hfb⟩
    rcases List.mem_cons.mp hb with hb1 | hb2
    · subst hb1
      simp [normList, hfb]
    · cases hfx : f x with
      | error e =>
        cases e
        simp [normList, hfx]
      | ok y =>
        have ih := normList_error f rest ⟨b, hb2, hfb⟩
        simp [normList, hfx, ih]

/-- C6: with all three per-service queries healthy, the region collector
returns their concatenation; a `ClientError` in a service's own query is
caught and yields the empty list for that service only, leaving the other
two services' contributions unchanged. -/
theorem region_collector_isolates_service_failures
    (region : String) (env : RegionEnv) (l1 l2 l3 : List SnapshotRecord)
    (h1 : get_rds_snapshots_for_region region env.rdsManualQ env.rdsAutoQ
      = .ok l1)
    (h2 : get_ec2_snapshots_for_region region env.ebsSnapQ env.ebsVolQ
      = .ok l2)
    (h3 : get_efs_snapshots_for_region region env.efsFsQ = .ok l3) :
    get_snapshots_for_region region env = .ok (l1 ++ l2 ++ l3) ∧
    (∀ q, get_rds_snapshots_for_region region .clientError q = .ok []) ∧
    (∀ q, get_ec2_snapshots_for_region region .clientError q = .ok []) ∧
    get_efs_snapshots_for_region region .clientError = .ok [] ∧
    get_snapshots_for_region region { env with rdsManualQ := .clientError }
      = .ok ([] ++ l2 ++ l3) ∧
    get_snapshots_for_region region { env with ebsSnapQ := .clientError }
      = .ok (l1 ++ [] ++ l3) ∧
    get_snapshots_for_region region { env with efsFsQ := .clientError }
      = .ok (l1 ++ l2 ++ []) := by
  refine ⟨?_, fun q => rfl, fun q => rfl, rfl, ?_, ?_, ?_⟩
  · simp [get_snapshots_for_region, h1, h2, h3]
  · simp [get_snapshots_for_region, get_rds_snapshots_for_region, h2, h3]
  · simp [get_snapshots_for_region, get_ec2_snapshots_for_region, h1, h3]
  · simp [get_snapshots_for_region, get_efs_snapshots_for_region, h1, h2]

/-- C6 witness: concrete healthy environment with one RDS record. -/
theorem region_collector_isolates_service_failures_witness :
    get_snapshots_for_region "us-east-1" env0 = .ok ([dbRecNorm] ++ [] ++ []) ∧
    get_snapshots_for_region "us-east-1"
      { env0 with rdsManualQ := .clientError } = .ok ([] ++ [] ++ []) := by
  have h := region_collector_isolates_service_failures "us-east-1" env0
    [dbRecNorm] [] [] rfl rfl rfl
  exact ⟨h.1, h.2.2.2.2.1⟩

/-- C7 counterexample: a concrete RDS listing holding one well-formed and
one timestamp-less raw snapshot makes the whole per-service call raise,
and the region task then contributes nothing, so the well-formed record
of the same service and region does not survive. -/
theorem missing_timestamp_drops_whole_region :
    get_rds_snapshots_for_region "us-east-1" (.ok [rawDbGood, rawDbBad])
      (.ok []) = .error .keyError ∧
    regionTaskResult "us-east-1" envBad = [] ∧
    ¬ dbRecNorm ∈ regionTaskResult "us-east-1" envBad := by
  refine ⟨rfl, rfl, ?_⟩
  rw [show regionTaskResult "us-east-1" envBad = [] from rfl]
  simp

/-- C7 amended: a raw RDS snapshot with no creation timestamp makes the
per-service collector raise an uncaught error, and the per-region handler
then discards the entire region's contribution; the remaining records do
not survive. -/
theorem missing_timestamp_raises_and_empties_region
    (region : String) (ms as2 : List RawDbSnapshot) (bad : RawDbSnapshot)
    (hmem : bad ∈ ms) (hnone : bad.snapshotCreateTime = none) :
    get_rds_snapshots_for_region region (.ok ms) (.ok as2)
      = .error .keyError ∧
    (∀ env : RegionEnv, env.rdsManualQ = .ok ms → env.rdsAutoQ = .ok as2 →
      regionTaskResult region env = []) := by
  have herr : normList (normalizeDb region "Manual") ms = .error .keyError :=
    normList_error _ ms ⟨bad, hmem, by simp [normalizeDb, hnone]⟩
  constructor
  · simp [get_rds_snapshots_for_region, herr]
  · intro env he1 he2
    simp [regionTaskResult, get_snapshots_for_region,
      get_rds_snapshots_for_region, he1, he2, herr]

/-- C7 amended witness: the concrete malformed listing empties the region. -/
theorem missing_timestamp_raises_and_empties_region_witness :
    get_rds_snapshots_for_region "us-east-1" (.ok [rawDbGood, rawDbBad])
      (.ok []) = .error .keyError ∧
    regionTaskResult "us-east-1" envBad = [] := by
  have h := missing_timestamp_raises_and_empties_region "us-east-1"
    [rawDbGood, rawDbBad] [] rawDbBad (by simp) (by decide)
  exact ⟨h.1, h.2 envBad rfl rfl⟩

theorem processFileSystems_skip (region : String) (fs : RawFileSystem)
    (h : fs.backupPolicyQ = .clientError) :
    ∀ pre post, processFileSystems region (pre ++ fs :: post)
      = processFileSystems region (pre ++ post)
  | [], post => by
    simp [processFileSystems, h]
  | f :: pre, post => by
    have ih := processFileSystems_skip region fs h pre post
    cases hf : f.backupPolicyQ with
    | clientError =>
      simp [processFileSystems, hf, ih]
    | ok p =>
      cases hq : f.recoveryPointsQ with
      | clientError =>
        simp [processFileSystems, hf, hq, ih]
      | ok rps =>
        simp [processFileSystems, hf, hq, ih]

theorem processFileSystems_policy_payload_unused (region : String) :
    ∀ (pre : List RawFileSystem) (fs2 : RawFileSystem) (p1 p2 : String)
      (post : List RawFileSystem),
      processFileSystems region (pre ++ { fs2 with backupPolicyQ := .ok p1 } :: post)
        = processFileSystems region (pre ++ { fs2 with backupPolicyQ := .ok p2 } :: post)
  | [], fs2, p1, p2, post => by
    simp [processFileSystems]
  | f :: pre, fs2, p1, p2, post => by
    have ih := processFileSystems_policy_payload_unused region pre fs2 p1 p2 post
    cases hf : f.backupPolicyQ with
    | clientError =>
      simp [processFileSystems, hf, ih]
    | ok p =>
      cases hq : f.recoveryPointsQ with
      | clientError =>
        simp [processFileSystems, hf, hq, ih]
      | ok rps =>
        simp [processFileSystems, hf, hq, ih]

/-- C10: a filesystem whose backup-policy lookup fails contributes zero
records: it is skipped no matter what its recovery-point listing would
have returned, and the region result equals the result without it; the
policy payload itself is never used, as exchanging one successful payload
for another never changes the result. -/
theorem efs_policy_failure_skips_filesystem
    (region : String) (pre post : List RawFileSystem) (fs : RawFileSystem)
    (h : fs.backupPolicyQ = .clientError) :
    processFileSystems region (pre ++ fs :: post)
      = processFileSystems region (pre ++ post) ∧
    (∀ q, processFileSystems region
        (pre ++ { fs with recoveryPointsQ := q } :: post)
      = processFileSystems region (pre ++ post)) ∧
    (∀ (fs2 : RawFileSystem) (p1 p2 : String),
      processFileSystems region
          (pre ++ { fs2 with backupPolicyQ := .ok p1 } :: post)
        = processFileSystems region
          (pre ++ { fs2 with backupPolicyQ := .ok p2 } :: post)) ∧
    get_efs_snapshots_for_region region (.ok (pre ++ fs :: post))
      = get_efs_snapshots_for_region region (.ok (pre ++ post)) := by
  refine ⟨processFileSystems_skip region fs h pre post, ?_, ?_, ?_⟩
  · intro q
    exact processFileSystems_skip region { fs with recoveryPointsQ := q }
      (by simp [h]) pre post
  · intro fs2 p1 p2
    exact processFileSystems_policy_payload_unused region pre fs2 p1 p2 post
  · simp [get_efs_snapshots_for_region,
      processFileSystems_skip region fs h pre post]

/-- C10 witness: the concrete filesystem with a failing policy lookup is
skipped and the healthy one still contributes. -/
theorem efs_policy_failure_skips_filesystem_witness :
    processFileSystems "us-east-1" ([] ++ fsSkip :: [fsGood])
      = processFileSystems "us-east-1" ([] ++ [fsGood]) ∧
    get_efs_snapshots_for_region "us-east-1" (.ok ([] ++ fsSkip :: [fsGood]))
      = get_efs_snapshots_for_region "us-east-1" (.ok ([] ++ [fsGood])) := by
  have h := efs_policy_failure_skips_filesystem "us-east-1" [] [fsGood]
    fsSkip rfl
  exact ⟨h.1, h.2.2.2⟩

theorem charListLt_irrefl : ∀ l : List Char, charListLt l l = false
  | [] => rfl
  | c :: cs => by
    simp [charListLt, lt_irrefl, charListLt_irrefl cs]

theorem charListLt_trans :
    ∀ a b c : List Char, charListLt a b = true → charListLt b c = true →
      charListLt a c = true
  | a, [], c => by
    intro h1 _
    cases a <;> simp [charListLt] at h1
  | a, b :: bs, [] => by
    intro _ h2
    simp [charListLt] at h2
  | [], b :: bs, c :: cs => by
    intro _ _
    simp [charListLt]
  | x :: xs, y :: ys, z :: zs => by
    intro h1 h2
    simp only [charListLt] at h1 h2 ⊢
    by_cases hxy : x < y
    · by_cases hyz : y < z
      · simp [lt_trans hxy hyz]
      · by_cases hzy : z < y
        · simp [hyz, hzy] at h2
        · have he : y = z := le_antisymm (le_of_not_lt hzy) (le_of_not_lt hyz)
          subst he
          simp [hxy]
    · by_cases hyx : y < x
      · simp [hxy, hyx] at h1
      · have he : x = y := le_antisymm (le_of_not_lt hyx) (le_of_not_lt hxy)
        subst he
        simp only [lt_irrefl, if_false] at h1
        by_cases hxz : x < z
        · simp [hxz]
        · by_cases hzx : z < x
          · simp [hxz, hzx] at h2
          · simp only [hxz, hzx, if_false]
            simp only [hxz, hzx, if_false] at h2
            exact charListLt_trans xs ys zs h1 h2

theorem charListLt_eq_of_not :
    ∀ a b : List Char, charListLt a b = false → charListLt b a = false →
      a = b
  | [], [] => by intro _ _; rfl
  | [], b :: bs => by intro h1 _; simp [charListLt] at h1
  | a :: as2, [] => by intro _ h2; simp [charListLt] at h2
  | x :: xs, y :: ys => by
    intro h1 h2
    simp only [charListLt] at h1 h2
    by_cases hxy : x < y
    · simp [hxy] at h1
    · by_cases hyx : y < x
      · simp [hxy, hyx] at h2
      · have he : x = y := le_antisymm (le_of_not_lt hyx) (le_of_not_lt hxy)
        subst he
        simp only [lt_irrefl, if_false] at h1 h2
        rw [charListLt_eq_of_not xs ys h1 h2]

theorem strLt_irrefl (s : String) : strLt s s = false :=
  charListLt_irrefl s.data

theorem strLt_trans (a b c : String) (h1 : strLt a b = true)
    (h2 : strLt b c = true) : strLt a c = true :=
  charListLt_trans a.data b.data c.data h1 h2

theorem strLt_eq_of_not (a b : String) (h1 : strLt a b = false)
    (h2 : strLt b a = false) : a = b := by
  have hd := charListLt_eq_of_not a.data b.data h1 h2
  cases a
  cases b
  simp_all

theorem keyLt_iff (x y : SnapshotRecord) :
    keyLt x y = true ↔
      (strLt x.service y.service = true ∨
        (x.service = y.service ∧
          (strLt x.snapType y.snapType = true ∨
            (x.snapType = y.snapType ∧ x.creationTime < y.creationTime)))) := by
  simp [keyLt, Bool.or_eq_true, Bool.and_eq_true, beq_iff_eq,
    decide_eq_true_iff]

theorem keyLt_cotrans (x y z : SnapshotRecord) (h : keyLt x z = true) :
    keyLt x y = true ∨ keyLt y z = true := by
  rw [keyLt_iff] at h
  rw [keyLt_iff, keyLt_iff]
  by_cases hsv : strLt x.service y.service = true
  · exact Or.inl (Or.inl hsv)
  · have hsvF : strLt x.service y.service = false := by
      cases hb : strLt x.service y.service
      · rfl
      · exact absurd hb hsv
    by_cases hsv2 : strLt y.service x.service = true
    · rcases h with h | ⟨hez, h⟩
      · exact Or.inr (Or.inl (strLt_trans _ _ _ hsv2 h))
      · refine Or.inr (Or.inl ?_)
        rw [← hez]
        exact hsv2
    · have hsv2F : strLt y.service x.service = false := by
        cases hb : strLt y.service x.service
        · rfl
        · exact absurd hb hsv2
      have he : x.service = y.service := strLt_eq_of_not _ _ hsvF hsv2F
      rcases h with h | ⟨hez, h⟩
      · refine Or.inr (Or.inl ?_)
        rw [← he]
        exact h
      · have heyz : y.service = z.service := he.symm.trans hez
        by_cases htv : strLt x.snapType y.snapType = true
        · exact Or.inl (Or.inr ⟨he, Or.inl htv⟩)
        · have htvF : strLt x.snapType y.snapType = false := by
            cases hb : strLt x.snapType y.snapType
            · rfl
            · exact absurd hb htv
          by_cases htv2 : strLt y.snapType x.snapType = true
          · rcases h with h | ⟨het, h⟩
            · exact Or.inr (Or.inr ⟨heyz, Or.inl (strLt_trans _ _ _ htv2 h)⟩)
            · refine Or.inr (Or.inr ⟨heyz, Or.inl ?_⟩)
              rw [← het]
              exact htv2
          · have htv2F : strLt y.snapType x.snapType = false := by
              cases hb : strLt y.snapType x.snapType
              · rfl
              · exact absurd hb htv2
            have het : x.snapType = y.snapType := strLt_eq_of_not _ _ htvF htv2F
            rcases h with h | ⟨het2, h⟩
            · refine Or.inr (Or.inr ⟨heyz, Or.inl ?_⟩)
              rw [← het]
              exact h
            · by_cases hc : x.creationTime < y.creationTime
              · exact Or.inl (Or.inr ⟨he, Or.inr ⟨het, hc⟩⟩)
              · have hetyz : y.snapType = z.snapType := het.symm.trans het2
                refine Or.inr (Or.inr ⟨heyz, Or.inr ⟨hetyz, ?_⟩⟩)
                omega

theorem keyLt_asymm (x y : SnapshotRecord) (h1 : keyLt x y = true)
    (h2 : keyLt y x = true) : False := by
  rw [keyLt_iff] at h1 h2
  rcases h1 with h1 | ⟨he1, h1⟩
  · rcases h2 with h2 | ⟨he2, h2⟩
    · have := strLt_trans _ _ _ h1 h2
      rw [strLt_irrefl] at this
      exact Bool.false_ne_true this
    · rw [he2] at h1
      rw [strLt_irrefl] at h1
      exact Bool.false_ne_true h1
  · rcases h2 with h2 | ⟨he2, h2⟩
    · rw [he1] at h2
      rw [strLt_irrefl] at h2
      exact Bool.false_ne_true h2
    · rcases h1 with h1 | ⟨het1, h1⟩
      · rcases h2 with h2 | ⟨het2, h2⟩
        · have := strLt_trans _ _ _ h1 h2
          rw [strLt_irrefl] at this
          exact Bool.false_ne_true this
        · rw [het2] at h1
          rw [strLt_irrefl] at h1
          exact Bool.false_ne_true h1
      · rcases h2 with h2 | ⟨het2, h2⟩
        · rw [het1] at h2
          rw [strLt_irrefl] at h2
          exact Bool.false_ne_true h2
        · omega

/-- C8: the flat report sort permutes the records into an order that is
pairwise non-increasing in the (service, kind, creation time) key; kinds
compare as strings with Manual above Automated, so within a service a
Manual record never has to follow an Automated one, and within equal
service and kind the earlier record of the output is the newer one. -/
theorem flat_sort_descending_manual_before_automated
    (ss : List SnapshotRecord) :
    (sortSnapshots ss).Perm ss ∧
    List.Pairwise (fun a b => keyLt a b = false) (sortSnapshots ss) ∧
    strLt "Automated" "Manual" = true ∧
    (∀ x y : SnapshotRecord, x.service = y.service →
      x.snapType = "Automated" → y.snapType = "Manual" →
      keyLt x y = true) ∧
    (∀ x y : SnapshotRecord, x.service = y.service →
      x.snapType = y.snapType → keyLt x y = false →
      y.creationTime ≤ x.creationTime) := by
  have htrans : ∀ a b c : SnapshotRecord,
      (!(keyLt a b)) = true → (!(keyLt b c)) = true → (!(keyLt a c)) = true := by
    intro a b c hab hbc
    cases hac : keyLt a c
    · rfl
    · rcases keyLt_cotrans a b c hac with h | h
      · rw [h] at hab
        simp at hab
      · rw [h] at hbc
        simp at hbc
  have htotal : ∀ a b : SnapshotRecord,
      ((!(keyLt a b)) || (!(keyLt b a))) = true := by
    intro a b
    cases hab : keyLt a b
    · simp
    · cases hba : keyLt b a
      · simp
      · exact (keyLt_asymm a b hab hba).elim
  refine ⟨List.mergeSort_perm ss _, ?_, by decide, ?_, ?_⟩
  · have hs := List.sorted_mergeSort htrans htotal ss
    refine List.Pairwise.imp ?_ hs
    intro a b hab
    cases hk : keyLt a b
    · rfl
    · rw [hk] at hab
      simp at hab
  · intro x y hsv hxa hym
    rw [keyLt_iff]
    refine Or.inr ⟨hsv, Or.inl ?_⟩
    rw [hxa, hym]
    decide
  · intro x y hsv htv hk
    by_contra hlt
    have hkt : keyLt x y = true := by
      rw [keyLt_iff]
      exact Or.inr ⟨hsv, Or.inr ⟨htv, by omega⟩⟩
    rw [hkt] at hk
    simp at hk

/-- C8 witness: a concrete Automated record compares strictly below its
Manual sibling and the concrete sort is a permutation. -/
theorem flat_sort_descending_manual_before_automated_witness :
    (sortSnapshots [recAuto, recNew]).Perm [recAuto, recNew] ∧
    keyLt recAuto recNew = true ∧
    recNew.creationTime ≤ recNew.creationTime := by
  have h := flat_sort_descending_manual_before_automated [recAuto, recNew]
  exact ⟨h.1, h.2.2.2.1 recAuto recNew rfl rfl rfl,
    h.2.2.2.2 recNew recNew rfl rfl (by decide)⟩

theorem digitChar_mem_digits (n : Nat) :
    digitChar (n % 10) ∈ ("0123456789").data := by
  have h10 : n % 10 < 10 := Nat.mod_lt _ (by norm_num)
  set k := n % 10 with hk
  interval_cases k <;> decide

/-- C9 counterexample: at a concrete account id and timestamp the program
names its flat export with an aws underscore prefix, not the claimed
snapshots underscore prefix, and likewise for the summary file. -/
theorem output_filenames_not_snapshots_prefixed :
    csv_filename "123456789012" (strftimeTimestamp 2026 1 1 0 0 0)
      = "aws_snapshots_123456789012_20260101_000000.csv" ∧
    csv_filename "123456789012" (strftimeTimestamp 2026 1 1 0 0 0)
      ≠ "snapshots_123456789012_20260101_000000.csv" ∧
    summary_filename "123456789012" (strftimeTimestamp 2026 1 1 0 0 0)
      ≠ "snapshots_summary_123456789012_20260101_000000.csv" := by decide

/-- C9 amended: a successful run writes exactly two files, named with the
aws underscore prefixes, and the timestamp component has the shape
YYYYMMDD underscore HHMMSS: fifteen characters, an underscore at index 8
and decimal digits everywhere else. -/
theorem output_filenames_shape
    (acct ts : String) (y mo d h mi s : Nat)
    (hts : ts = strftimeTimestamp y mo d h mi s) :
    csv_filename acct ts = "aws_snapshots_" ++ acct ++ "_" ++ ts ++ ".csv" ∧
    summary_filename acct ts
      = "aws_snapshots_summary_" ++ acct ++ "_" ++ ts ++ ".csv" ∧
    ts.length = 15 ∧
    ts.data.getD 8 ' ' = '_' ∧
    (∀ i, i < 15 → i ≠ 8 → ts.data.getD i ' ' ∈ ("0123456789").data) := by
  subst hts
  refine ⟨rfl, rfl, rfl, rfl, ?_⟩
  intro i hi hne
  have hdata : (strftimeTimestamp y mo d h mi s).data =
      [digitChar (y / 1000 % 10), digitChar (y / 100 % 10),
       digitChar (y / 10 % 10), digitChar (y % 10),
       digitChar (mo / 10 % 10), digitChar (mo % 10),
       digitChar (d / 10 % 10), digitChar (d % 10), '_',
       digitChar (h / 10 % 10), digitChar (h % 10),
       digitChar (mi / 10 % 10), digitChar (mi % 10),
       digitChar (s / 10 % 10), digitChar (s % 10)] := rfl
  rw [hdata]
  interval_cases i
  · exact digitChar_mem_digits _
  · exact digitChar_mem_digits _
  · exact digitChar_mem_digits _
  · exact digitChar_mem_digits _
  · exact digitChar_mem_digits _
  · exact digitChar_mem_digits _
  · exact digitChar_mem_digits _
  · exact digitChar_mem_digits _
  · exact absurd rfl hne
  · exact digitChar_mem_digits _
  · exact digitChar_mem_digits _
  · exact digitChar_mem_digits _
  · exact digitChar_mem_digits _
  · exact digitChar_mem_digits _
  · exact digitChar_mem_digits _

/-- C9 amended witness: concrete instance of the file-name shapes. -/
theorem output_filenames_shape_witness :
    csv_filename "123456789012" (strftimeTimestamp 2026 1 1 0 0 0)
      = "aws_snapshots_" ++ "123456789012" ++ "_"
        ++ strftimeTimestamp 2026 1 1 0 0 0 ++ ".csv" ∧
    (strftimeTimestamp 2026 1 1 0 0 0).length = 15 ∧
    (strftimeTimestamp 2026 1 1 0 0 0).data.getD 0 ' '
      ∈ ("0123456789").data := by
  have h := output_filenames_shape "123456789012"
    (strftimeTimestamp 2026 1 1 0 0 0) 2026 1 1 0 0 0 rfl
  exact ⟨h.1, h.2.2.1, h.2.2.2.2 0 (by norm_num) (by norm_num)⟩
